import Mathlib

/-!
Verification of the reliability core of the soundpasta repository
(src/lib/reliableWebsocket): the packet codec (packet.ts), the
reliability engine (reliability.ts, ReliabilityManager) and the
connection facade (reliable-websocket.ts, ReliableWebSocket).

Byte buffers (ArrayBuffer / Uint8Array) are modelled as lists of
natural numbers below 256; JavaScript 32-bit coercions are modelled
with explicit `% 2^k` operations.  Timers are modelled as discrete
fire events; callbacks (onmessage, onclose, ...) are modelled as
emitted event values.
-/

set_option maxRecDepth 1000000

/-! ## Packet flags and configuration (types.ts) -/

abbrev Bytes := List Nat

def FLAG_DATA : Nat := 0x01
def FLAG_ACK : Nat := 0x02
def FLAG_SYN : Nat := 0x04
def FLAG_FIN : Nat := 0x08

def PACKET_HEADER_SIZE : Nat := 11

structure ReliabilityConfig where
  maxPacketPayloadSize : Nat
  retransmissionTimeout : Nat
  maxRetransmissionAttempts : Nat
  connectionTimeout : Nat
deriving DecidableEq, Repr

def DEFAULT_CONFIG : ReliabilityConfig :=
  { maxPacketPayloadSize := 1489
    retransmissionTimeout := 1000
    maxRetransmissionAttempts := 5
    connectionTimeout := 5000 }

/-! ## CRC32 (the crc-32 npm package: IEEE 802.3 polynomial, as used by
calculateChecksum in packet.ts, which takes the unsigned value via >>> 0) -/

/-- One bit-step of CRC32: shift right, conditionally xor the reversed
polynomial 0xEDB88320. -/
def crc32Round (c : Nat) : Nat :=
  if c % 2 = 1 then (c / 2) ^^^ 0xEDB88320 else c / 2

/-- Feed one byte into the running CRC: xor it in, then 8 bit-steps. -/
def crc32UpdateByte (c b : Nat) : Nat := crc32Round^[8] (c ^^^ b)

/-- CRC32 of a byte list (initial and final complement 0xFFFFFFFF). -/
def crc32 (data : Bytes) : Nat :=
  (data.foldl crc32UpdateByte 0xFFFFFFFF) ^^^ 0xFFFFFFFF

/-! ## Little-endian field encoding (DataView setUint32/setUint16/setUint8
with littleEndian = true; the setters coerce their argument modulo 2^k) -/

def le16 (n : Nat) : Bytes := [n % 256, n / 256 % 256]

def le32 (n : Nat) : Bytes :=
  [n % 256, n / 256 % 256, n / 65536 % 256, n / 16777216 % 256]

def rd16 (b0 b1 : Nat) : Nat := b0 + 256 * b1

def rd32 (b0 b1 b2 b3 : Nat) : Nat :=
  b0 + 256 * b1 + 65536 * b2 + 16777216 * b3

/-! ## Packet codec (packet.ts) -/

structure PacketHeader where
  sequence : Nat
  checksum : Nat
  flags : Nat
  payloadLength : Nat
deriving DecidableEq, Repr

/-- The 7-byte header-without-checksum followed by the payload: the
input of calculateChecksum in both encodePacket and decodePacket. -/
def checksumInput (sequence flags payloadLength : Nat) (payload : Bytes) : Bytes :=
  le32 sequence ++ [flags % 256] ++ le16 payloadLength ++ payload

/-- encodePacket: sequence u32LE, checksum u32LE, flags u8,
payload_length u16LE, payload.  Payload bytes pass through a Uint8Array,
hence the `% 256`. -/
def encodePacket (sequence flags : Nat) (payload : Bytes) : Bytes :=
  let payloadBytes := payload.map (fun b => b % 256)
  let payloadLength := payload.length
  let checksum := crc32 (checksumInput sequence flags payloadLength payloadBytes)
  le32 sequence ++ le32 checksum ++ [flags % 256] ++ le16 payloadLength ++ payloadBytes

/-- decodePacket: fails (none) if the input is shorter than 11 bytes,
shorter than 11 + payload_length, or the recomputed checksum differs
from the stored one.  The 11-deep pattern reads the header bytes at
offsets 0..10; `rest.take payloadLength` is data.slice(11, 11+len). -/
def decodePacket (data : Bytes) : Option (PacketHeader × Bytes) :=
  match data with
  | b0 :: b1 :: b2 :: b3 :: c0 :: c1 :: c2 :: c3 :: fl :: l0 :: l1 :: rest =>
    let sequence := rd32 b0 b1 b2 b3
    let checksum := rd32 c0 c1 c2 c3
    let payloadLength := rd16 l0 l1
    if rest.length < payloadLength then none
    else
      let payload := rest.take payloadLength
      let calculatedChecksum := crc32 (checksumInput sequence fl payloadLength payload)
      if calculatedChecksum ≠ checksum then none
      else some ({ sequence := sequence, checksum := checksum,
                   flags := fl, payloadLength := payloadLength }, payload)
  | _ => none

def createAckPacket (sequence : Nat) : Bytes := encodePacket sequence FLAG_ACK []

def createSynPacket : Bytes := encodePacket 0 FLAG_SYN []

def createFinPacket (sequence : Nat) : Bytes := encodePacket sequence FLAG_FIN []


/-! ## Reliability engine (reliability.ts, class ReliabilityManager)

The unacknowledged-packet Map is an association list keyed by sequence
(JS Maps have unique keys; setSeq replaces in place or appends, bumpSeq
mutates the entry found by get, removeSeq deletes the key).  The
received-sequence Map, whose values are always `true`, is modelled by
its key set (a Finset).  Per-entry retransmission timers are modelled
by the discrete fire event `rmTimerFire`: a cleared or absent timer
corresponds to the entry being gone from the map, in which case the
fire is a no-op, exactly as in scheduleNext. -/

structure UnacknowledgedPacket where
  sequence : Nat
  packet : Bytes
  attempts : Nat
deriving DecidableEq, Repr

structure RMState where
  config : ReliabilityConfig
  nextSequence : Nat
  unacked : List UnacknowledgedPacket
  receivedSequences : Finset Nat
  receivedSequenceWindow : List Nat
deriving DecidableEq

def windowSize : Nat := 1000

def initRM (config : ReliabilityConfig) : RMState :=
  { config := config
    nextSequence := 1
    unacked := []
    receivedSequences := ∅
    receivedSequenceWindow := [] }

/-- Map.set on the unacknowledged map: replace the entry with the same
sequence in place, or append. -/
def setSeq : List UnacknowledgedPacket → UnacknowledgedPacket → List UnacknowledgedPacket
  | [], e => [e]
  | x :: rest, e => if x.sequence = e.sequence then e :: rest else x :: setSeq rest e

/-- Map.delete on the unacknowledged map. -/
def removeSeq : List UnacknowledgedPacket → Nat → List UnacknowledgedPacket
  | [], _ => []
  | x :: rest, q => if x.sequence = q then removeSeq rest q else x :: removeSeq rest q

/-- Mutation of the entry returned by Map.get: increment attempts on the
first (unique) entry with the given sequence. -/
def bumpSeq : List UnacknowledgedPacket → Nat → List UnacknowledgedPacket
  | [], _ => []
  | x :: rest, q =>
    if x.sequence = q then { x with attempts := x.attempts + 1 } :: rest
    else x :: bumpSeq rest q

/-- Map.get on the unacknowledged map. -/
def findSeq (l : List UnacknowledgedPacket) (q : Nat) : Option UnacknowledgedPacket :=
  l.find? (fun e => e.sequence == q)

/-- getNextSequence: return the counter and advance it with the 32-bit
wrap-around of `(this.nextSequence + 1) >>> 0`. -/
def getNextSequence (rm : RMState) : Nat × RMState :=
  (rm.nextSequence, { rm with nextSequence := (rm.nextSequence + 1) % 4294967296 })

/-- sendPacket: allocate the next sequence, encode, transmit once, and
record an outstanding entry with attempts = 0 unless flags = ACK
(scheduleRetransmission returns immediately for ACK).  Result:
(new state, transmitted buffers, allocated sequence). -/
def sendPacket (rm : RMState) (payload : Bytes) (flags : Nat) :
    RMState × List Bytes × Nat :=
  let r := getNextSequence rm
  let sequence := r.1
  let rm1 := r.2
  let packet := encodePacket sequence flags payload
  if flags = FLAG_ACK then (rm1, [packet], sequence)
  else
    let entry : UnacknowledgedPacket := ⟨sequence, packet, 0⟩
    ({ rm1 with unacked := setSeq rm1.unacked entry }, [packet], sequence)

/-- handleAck: clear the timer and delete the outstanding entry. -/
def handleAck (rm : RMState) (sequence : Nat) : RMState :=
  { rm with unacked := removeSeq rm.unacked sequence }

/-- The scheduleNext closure of scheduleRetransmission, invoked when the
retransmission timer for `sequence` fires: no-op if the entry is gone;
if attempts ≥ maxRetransmissionAttempts, drop the entry without
transmitting; otherwise increment attempts, retransmit the same encoded
bytes and re-arm the timer. -/
def rmTimerFire (rm : RMState) (sequence : Nat) : RMState × List Bytes :=
  match findSeq rm.unacked sequence with
  | none => (rm, [])
  | some unacked =>
    if unacked.attempts ≥ rm.config.maxRetransmissionAttempts then
      ({ rm with unacked := removeSeq rm.unacked sequence }, [])
    else
      ({ rm with unacked := bumpSeq rm.unacked sequence }, [unacked.packet])

def isDuplicate (rm : RMState) (sequence : Nat) : Bool :=
  decide (sequence ∈ rm.receivedSequences)

/-- markReceived: insert into the duplicate-detection map, push onto the
FIFO window, and when the window exceeds its capacity shift off the
oldest entry and delete it from the map. -/
def markReceived (rm : RMState) (sequence : Nat) : RMState :=
  let m := insert sequence rm.receivedSequences
  let w := rm.receivedSequenceWindow ++ [sequence]
  if w.length > windowSize then
    { rm with receivedSequences := m.erase (w.headD 0),
              receivedSequenceWindow := w.tail }
  else
    { rm with receivedSequences := m, receivedSequenceWindow := w }

structure RecvResult where
  sequence : Nat
  flags : Nat
  payload : Bytes
  isDuplicate : Bool
deriving DecidableEq, Repr

/-- handleReceivedPacket: decode (drop undecodable input); an ACK cancels
the matching outstanding entry and is not delivered upstream; any other
packet is checked against the window, recorded when new, and always
acknowledged.  Result: (new state, transmitted buffers, upstream
result). -/
def handleReceivedPacket (rm : RMState) (data : Bytes) :
    RMState × List Bytes × Option RecvResult :=
  match decodePacket data with
  | none => (rm, [], none)
  | some (header, payload) =>
    if header.flags = FLAG_ACK then (handleAck rm header.sequence, [], none)
    else
      let isDup := isDuplicate rm header.sequence
      let rm1 := if isDup then rm else markReceived rm header.sequence
      (rm1, [createAckPacket header.sequence],
        some { sequence := header.sequence, flags := header.flags,
               payload := payload, isDuplicate := isDup })

def getUnacknowledgedCount (rm : RMState) : Nat := rm.unacked.length

def getBufferedAmount (rm : RMState) : Nat :=
  (rm.unacked.map (fun e => e.packet.length)).sum

def cleanup (rm : RMState) : RMState :=
  { rm with unacked := [], receivedSequences := ∅, receivedSequenceWindow := [] }

/-- The operations of the reliability engine, for stating invariants that
hold after every operation. -/
inductive RMOp
  | send (payload : Bytes) (flags : Nat)
  | recv (data : Bytes)
  | fire (sequence : Nat)
  | clean
deriving DecidableEq, Repr

def rmStep (rm : RMState) : RMOp → RMState
  | RMOp.send payload flags => (sendPacket rm payload flags).1
  | RMOp.recv data => (handleReceivedPacket rm data).1
  | RMOp.fire sequence => (rmTimerFire rm sequence).1
  | RMOp.clean => cleanup rm

def rmRun (config : ReliabilityConfig) (ops : List RMOp) : RMState :=
  ops.foldl rmStep (initRM config)

/-- Iterated firing of the retransmission timer of one sequence,
counting the buffers handed to the carrier. -/
def fireRepeat (q : Nat) : Nat → RMState → RMState × Nat
  | 0, rm => (rm, 0)
  | n + 1, rm =>
    let r := rmTimerFire rm q
    let rest := fireRepeat q n r.1
    (rest.1, r.2.length + rest.2)

/-! ## Connection facade (reliable-websocket.ts, class ReliableWebSocket)

Callbacks are modelled as emitted `Evt` values, timers as Bool/Option
fields plus discrete fire events.  The blob wrapping selected by
binaryType only changes the container of the delivered bytes and is not
modelled; `Evt.message` carries the delivered bytes themselves. -/

inductive ConnState
  | CONNECTING
  | OPEN
  | CLOSING
  | CLOSED
deriving DecidableEq, Repr

inductive Evt
  | opened
  | message (data : Bytes)
  | error
  | closed (code : Nat) (wasClean : Bool)
deriving DecidableEq, Repr

def countMessages (evts : List Evt) : Nat :=
  (evts.filter (fun e => match e with | Evt.message _ => true | _ => false)).length

structure FragmentedMessage where
  totalFragments : Int
  receivedFragments : List (Nat × Bytes)
  expectedSequence : Nat
deriving DecidableEq, Repr

/-- Map.get for number-keyed JS maps modelled as association lists. -/
def jsGet {α : Type} (m : List (Nat × α)) (k : Nat) : Option α :=
  (m.find? (fun p => p.1 == k)).map (fun p => p.2)

/-- Map.set: replace in place or append. -/
def jsSet {α : Type} : List (Nat × α) → Nat → α → List (Nat × α)
  | [], k, v => [(k, v)]
  | p :: rest, k, v =>
    if p.1 = k then (k, v) :: rest else p :: jsSet rest k v

/-- Map.delete. -/
def jsDelete {α : Type} : List (Nat × α) → Nat → List (Nat × α)
  | [], _ => []
  | p :: rest, k => if p.1 = k then jsDelete rest k else p :: jsDelete rest k

structure WSState where
  config : ReliabilityConfig
  state : ConnState
  rm : RMState
  connectionTimer : Bool
  closingTimer : Option (Option Nat × Option String)
  fragmentedMessages : List (Nat × FragmentedMessage)
  nextFragmentId : Nat
deriving DecidableEq

/-- The constructor together with establishConnection: state CONNECTING,
one raw SYN transmitted, connection timer armed. -/
def initWS (config : ReliabilityConfig) : WSState × List Bytes :=
  ({ config := config
     state := ConnState.CONNECTING
     rm := initRM config
     connectionTimer := true
     closingTimer := none
     fragmentedMessages := []
     nextFragmentId := 1 },
   [createSynPacket])

/-- handleSyn: only in CONNECTING, reply with a SYN, cancel the
connection timer, open, emit the open event. -/
def handleSyn (st : WSState) : WSState × List Bytes × List Evt :=
  if st.state = ConnState.CONNECTING then
    ({ st with state := ConnState.OPEN, connectionTimer := false },
     [createSynPacket], [Evt.opened])
  else (st, [], [])

/-- handleFin: in OPEN or CLOSING, close cleanly (code 1000), cancelling
the closing timer. -/
def handleFin (st : WSState) : WSState × List Evt :=
  if st.state = ConnState.OPEN ∨ st.state = ConnState.CLOSING then
    ({ st with state := ConnState.CLOSED, closingTimer := none },
     [Evt.closed 1000 true])
  else (st, [])

/-- reassembleMessage: the result buffer is allocated with the summed
size of all stored fragments and fragments 0..total-1 are copied in
order, missing indices skipped, the remainder staying zero. -/
def reassembleMessage (f : FragmentedMessage) : Bytes :=
  let totalSize := (f.receivedFragments.map (fun p => p.2.length)).sum
  let collected :=
    ((List.range f.totalFragments.toNat).map
      (fun i => (jsGet f.receivedFragments i).getD [])).flatten
  collected ++ List.replicate (totalSize - collected.length) 0

/-- handleData: ignored outside OPEN; a payload of fewer than 5 bytes is
delivered directly; otherwise the payload is parsed as a fragment
header (message id u32LE, index-and-last byte), stored, and the message
delivered once the known total is reached. -/
def handleData (st : WSState) (payload : Bytes) : WSState × List Evt :=
  if st.state ≠ ConnState.OPEN then (st, [])
  else if payload.length < 5 then (st, [Evt.message payload])
  else
    let fragmentId := rd32 (payload.getD 0 0) (payload.getD 1 0)
        (payload.getD 2 0) (payload.getD 3 0)
    let fragmentIndex := payload.getD 4 0
    let isLastFragment := fragmentIndex &&& 0x80 ≠ 0
    let actualIndex := fragmentIndex &&& 0x7f
    let fragmentData := payload.drop 5
    let f0 := match jsGet st.fragmentedMessages fragmentId with
      | some f => f
      | none =>
        { totalFragments := if isLastFragment then (actualIndex : Int) + 1 else -1
          receivedFragments := []
          expectedSequence := 0 }
    let f1 := { f0 with
      receivedFragments := jsSet f0.receivedFragments actualIndex fragmentData }
    let f2 := if isLastFragment
      then { f1 with totalFragments := (actualIndex : Int) + 1 } else f1
    if f2.totalFragments > 0 ∧
        (f2.receivedFragments.length : Int) = f2.totalFragments then
      ({ st with fragmentedMessages := jsDelete st.fragmentedMessages fragmentId },
       [Evt.message (reassembleMessage f2)])
    else
      ({ st with fragmentedMessages := jsSet st.fragmentedMessages fragmentId f2 },
       [])

/-- handleReceivedData: run the reliability engine, drop duplicates, then
dispatch on the SYN, FIN and DATA flag bits in that order. -/
def handleReceivedData (st : WSState) (data : Bytes) :
    WSState × List Bytes × List Evt :=
  let r := handleReceivedPacket st.rm data
  let st1 := { st with rm := r.1 }
  match r.2.2 with
  | none => (st1, r.2.1, [])
  | some res =>
    if res.isDuplicate then (st1, r.2.1, [])
    else if res.flags &&& FLAG_SYN ≠ 0 then
      let x := handleSyn st1
      (x.1, r.2.1 ++ x.2.1, x.2.2)
    else if res.flags &&& FLAG_FIN ≠ 0 then
      let x := handleFin st1
      (x.1, r.2.1, x.2)
    else if res.flags &&& FLAG_DATA ≠ 0 then
      let x := handleData st1 res.payload
      (x.1, r.2.1, x.2)
    else (st1, r.2.1, [])

/-- sendMessage: allocate a fragment id, compute
ceil(byteLength / maxPacketPayloadSize) fragments; a single fragment is
submitted unchanged, otherwise each slice is prefixed by the 5-byte
fragment header (message id u32LE, index byte with high bit on the last
fragment). -/
def sendMessage (st : WSState) (data : Bytes) : WSState × List Bytes :=
  let maxPayloadSize := st.config.maxPacketPayloadSize
  let fragmentId := st.nextFragmentId
  let st1 := { st with nextFragmentId := st.nextFragmentId + 1 }
  let totalFragments := (data.length + maxPayloadSize - 1) / maxPayloadSize
  if totalFragments = 1 then
    let r := sendPacket st1.rm data FLAG_DATA
    ({ st1 with rm := r.1 }, r.2.1)
  else
    (List.range totalFragments).foldl
      (fun acc i =>
        let fragment := (data.drop (i * maxPayloadSize)).take maxPayloadSize
        let indexByte :=
          (if i = totalFragments - 1 then i ||| 0x80 else i) % 256
        let fragmentPayload := le32 fragmentId ++ [indexByte] ++ fragment
        let r := sendPacket acc.1.rm fragmentPayload FLAG_DATA
        ({ acc.1 with rm := r.1 }, acc.2 ++ r.2.1))
      (st1, [])

/-- The argument of send: a string (UTF-8 encoded), an ArrayBuffer, a
Blob (unimplemented) or an ArrayBufferView (copied to a buffer). -/
inductive SendValue
  | text (s : String)
  | buffer (b : Bytes)
  | blob
  | view (b : Bytes)
deriving DecidableEq

inductive SendError
  | notOpen
  | unsupported
deriving DecidableEq, Repr

/-- UTF-8 encoding of one code point (the TextEncoder algorithm). -/
def utf8EncodeCharNat (c : Nat) : List Nat :=
  if c < 0x80 then [c]
  else if c < 0x800 then [0xC0 + c / 64, 0x80 + c % 64]
  else if c < 0x10000 then [0xE0 + c / 4096, 0x80 + c / 64 % 64, 0x80 + c % 64]
  else [0xF0 + c / 262144, 0x80 + c / 4096 % 64, 0x80 + c / 64 % 64, 0x80 + c % 64]

/-- new TextEncoder().encode(s): UTF-8 encode the string's code points. -/
def utf8Bytes (s : String) : Bytes :=
  (s.data.map (fun ch => utf8EncodeCharNat ch.toNat)).flatten

/-- send: throws NotOpen outside OPEN, Unsupported for a Blob; otherwise
forwards the bytes to sendMessage.  A throw leaves the state untouched
and transmits nothing. -/
def wsSend (st : WSState) (v : SendValue) : WSState × List Bytes × Option SendError :=
  if st.state ≠ ConnState.OPEN then (st, [], some SendError.notOpen)
  else
    match v with
    | SendValue.text s =>
      let r := sendMessage st (utf8Bytes s)
      (r.1, r.2, none)
    | SendValue.blob => (st, [], some SendError.unsupported)
    | SendValue.buffer b =>
      let r := sendMessage st b
      (r.1, r.2, none)
    | SendValue.view b =>
      let r := sendMessage st b
      (r.1, r.2, none)

/-- close: no-op when already CLOSING or CLOSED; otherwise go to CLOSING,
transmit a raw FIN with the next engine sequence, enqueue a reliable FIN
through the engine, and arm the closing timer with the captured code and
reason.  The connection timer is not touched. -/
def wsClose (st : WSState) (code : Option Nat) (reason : Option String) :
    WSState × List Bytes :=
  if st.state = ConnState.CLOSED ∨ st.state = ConnState.CLOSING then (st, [])
  else
    let st1 := { st with state := ConnState.CLOSING }
    let r0 := getNextSequence st1.rm
    let finPacket := createFinPacket r0.1
    let r := sendPacket r0.2 [] FLAG_FIN
    ({ st1 with rm := r.1, closingTimer := some (code, reason) },
     [finPacket] ++ r.2.1)

/-- The connection timer armed by establishConnection: its callback runs
close(1006, "Connection timeout") only if the state is still
CONNECTING. -/
def connectionTimerFire (st : WSState) : WSState × List Bytes × List Evt :=
  if st.connectionTimer then
    let st1 := { st with connectionTimer := false }
    if st1.state = ConnState.CONNECTING then
      let r := wsClose st1 (some 1006) (some "Connection timeout")
      (r.1, r.2, [])
    else (st1, [], [])
  else (st, [], [])

/-- The closing timer armed by close: its callback forces CLOSED and
emits a close event with the captured code (or 1000: `code || 1000`,
where a JS 0 is falsy), wasClean = false. -/
def closingTimerFire (st : WSState) : WSState × List Evt :=
  match st.closingTimer with
  | none => (st, [])
  | some captured =>
    let code := match captured.1 with
      | none => 1000
      | some 0 => 1000
      | some c => c
    ({ st with state := ConnState.CLOSED, closingTimer := none },
     [Evt.closed code false])

/-! ## Derived definitions used by the statements -/

/-- Well-formedness of the duplicate-suppression data of the engine: the
FIFO window holds pairwise distinct sequences and the key set of the
receivedSequences map is exactly the set of window entries. -/
def WFrm (rm : RMState) : Prop :=
  rm.receivedSequenceWindow.Nodup ∧
  rm.receivedSequences = rm.receivedSequenceWindow.toFinset

/-- An endpoint (default configuration) brought to OPEN by receiving the
peer's SYN, as in scenario S1 of the spec. -/
def wsOpenEndpoint : WSState :=
  (handleReceivedData (initWS DEFAULT_CONFIG).1 createSynPacket).1

/-- An engine state whose receive window is exactly full, for
exercising the eviction path. -/
def rmFullWindow : RMState :=
  { config := DEFAULT_CONFIG
    nextSequence := 1
    unacked := []
    receivedSequences := (List.range 1000).toFinset
    receivedSequenceWindow := List.range 1000 }

/-! ## Arithmetic lemmas for the codec -/

lemma rd32_le32 (n : Nat) (h : n < 4294967296) :
    rd32 (n % 256) (n / 256 % 256) (n / 65536 % 256) (n / 16777216 % 256) = n := by
  unfold rd32; omega

lemma rd16_le16 (n : Nat) (h : n < 65536) :
    rd16 (n % 256) (n / 256 % 256) = n := by
  unfold rd16; omega

lemma crc32Round_lt (c : Nat) (h : c < 4294967296) : crc32Round c < 4294967296 := by
  unfold crc32Round
  split
  · have h1 : c / 2 < 2 ^ 32 := by omega
    have h2 : (0xEDB88320 : Nat) < 2 ^ 32 := by norm_num
    have := Nat.xor_lt_two_pow h1 h2
    omega
  · omega

lemma crc32Round_iter_lt (k c : Nat) (h : c < 4294967296) :
    crc32Round^[k] c < 4294967296 := by
  induction k generalizing c with
  | zero => simpa using h
  | succ k ih =>
    rw [Function.iterate_succ_apply]
    exact ih _ (crc32Round_lt c h)

lemma crc32UpdateByte_lt (c b : Nat) (hc : c < 4294967296) (hb : b < 4294967296) :
    crc32UpdateByte c b < 4294967296 := by
  unfold crc32UpdateByte
  apply crc32Round_iter_lt
  have hc' : c < 2 ^ 32 := by omega
  have hb' : b < 2 ^ 32 := by omega
  have := Nat.xor_lt_two_pow hc' hb'
  omega

lemma crc32_foldl_lt (l : Bytes) (acc : Nat) (hacc : acc < 4294967296)
    (hl : ∀ b ∈ l, b < 4294967296) :
    l.foldl crc32UpdateByte acc < 4294967296 := by
  induction l generalizing acc with
  | nil => simpa using hacc
  | cons x xs ih =>
    simp only [List.foldl_cons]
    exact ih _ (crc32UpdateByte_lt _ _ hacc (hl x (by simp)))
      (fun b hb => hl b (by simp [hb]))

lemma crc32_lt (data : Bytes) (h : ∀ b ∈ data, b < 4294967296) :
    crc32 data < 4294967296 := by
  unfold crc32
  have h1 : data.foldl crc32UpdateByte 0xFFFFFFFF < 2 ^ 32 := by
    have := crc32_foldl_lt data 0xFFFFFFFF (by norm_num) h
    omega
  have h2 : (0xFFFFFFFF : Nat) < 2 ^ 32 := by norm_num
  have := Nat.xor_lt_two_pow h1 h2
  omega

lemma le32_mem_lt (n b : Nat) (h : b ∈ le32 n) : b < 4294967296 := by
  simp only [le32, List.mem_cons, List.not_mem_nil, or_false] at h
  rcases h with h | h | h | h <;> subst h <;> omega

lemma le16_mem_lt (n b : Nat) (h : b ∈ le16 n) : b < 4294967296 := by
  simp only [le16, List.mem_cons, List.not_mem_nil, or_false] at h
  rcases h with h | h <;> subst h <;> omega

lemma checksumInput_bytes_lt (s f len : Nat) (p : Bytes)
    (hp : ∀ b ∈ p, b < 256) :
    ∀ b ∈ checksumInput s f len p, b < 4294967296 := by
  intro b hb
  simp only [checksumInput, List.mem_append, List.mem_cons,
    List.not_mem_nil, or_false] at hb
  rcases hb with ((h | h) | h) | h
  · exact le32_mem_lt s b h
  · subst h; omega
  · exact le16_mem_lt len b h
  · have := hp b h; omega

lemma map_mod_eq_self (p : Bytes) (hp : ∀ b ∈ p, b < 256) :
    p.map (fun b => b % 256) = p := by
  induction p with
  | nil => rfl
  | cons x xs ih =>
    simp only [List.map_cons, List.cons.injEq]
    exact ⟨Nat.mod_eq_of_lt (hp x (by simp)),
      ih fun b hb => hp b (by simp [hb])⟩

/-- C3: for every sequence below 2^32, flags byte below 256 and payload
of at most 65535 bytes, decodePacket inverts encodePacket: it succeeds
and returns the same sequence, flags and payload length, and a
byte-equal payload. -/
theorem C3_encode_decode_roundtrip (s f : Nat) (p : Bytes)
    (hs : s < 4294967296) (hf : f < 256) (hlen : p.length ≤ 65535)
    (hp : ∀ b ∈ p, b < 256) :
    ∃ hdr payload, decodePacket (encodePacket s f p) = some (hdr, payload) ∧
      hdr.sequence = s ∧ hdr.flags = f ∧ hdr.payloadLength = p.length ∧
      payload = p := by
  have hpm : p.map (fun b => b % 256) = p := map_mod_eq_self p hp
  have hcsum : crc32 (checksumInput s f p.length p) < 4294967296 :=
    crc32_lt _ (checksumInput_bytes_lt s f p.length p hp)
  refine ⟨{ sequence := s, checksum := crc32 (checksumInput s f p.length p),
            flags := f, payloadLength := p.length }, p, ?_, rfl, rfl, rfl, rfl⟩
  have henc : encodePacket s f p =
      le32 s ++ le32 (crc32 (checksumInput s f p.length p)) ++ [f % 256] ++
        le16 p.length ++ p := by
    simp only [encodePacket, hpm]
  rw [henc]
  simp only [le32, le16, List.cons_append, List.nil_append]
  simp only [decodePacket]
  rw [rd32_le32 s hs, rd32_le32 _ hcsum,
    rd16_le16 p.length (by omega), Nat.mod_eq_of_lt hf]
  simp [checksumInput, le32, le16, Nat.mod_eq_of_lt hf]

/-- C1 is violated by the code: the spec promises that every message sent
on one endpoint of a losslessly wired pair produces exactly one
on_message on the peer with byte-equal content, in particular for byte
lengths between 5 and maxPacketPayloadSize.  For the 5-byte message
"hello", the sender transmits exactly one DATA packet (no fragment
header, no error), yet delivering that packet to an OPEN peer produces
zero message events: the receiver misparses the 5-byte payload as a
fragment header and parks it forever in the fragment buffer. -/
theorem C1_small_message_never_delivered :
    (5 ≤ (utf8Bytes "hello").length ∧
     (utf8Bytes "hello").length ≤ DEFAULT_CONFIG.maxPacketPayloadSize) ∧
    (wsSend wsOpenEndpoint (SendValue.text "hello")).2.2 = none ∧
    (wsSend wsOpenEndpoint (SendValue.text "hello")).2.1 =
      [encodePacket 1 FLAG_DATA (utf8Bytes "hello")] ∧
    countMessages (handleReceivedData wsOpenEndpoint
      (encodePacket 1 FLAG_DATA (utf8Bytes "hello"))).2.2 = 0 ∧
    (handleReceivedData wsOpenEndpoint
      (encodePacket 1 FLAG_DATA (utf8Bytes "hello"))).1.fragmentedMessages.length = 1 := by
  decide

/-- C2 is wrong about the code: when the connection timer fires in
CONNECTING, the callback runs close(1006, "Connection timeout"), which
moves the state to CLOSING (not CLOSED) and emits no close event at
that moment. -/
theorem C2_counterexample_timer_fire_leaves_CLOSING :
    let r := connectionTimerFire (initWS DEFAULT_CONFIG).1
    r.1.state = ConnState.CLOSING ∧ r.1.state ≠ ConnState.CLOSED ∧ r.2.2 = [] := by
  decide

/-- C2 amended: the connection-timer expiry in CONNECTING runs
close(1006, "Connection timeout"), reaching CLOSING with the closing
timer armed and no event; only when the closing timer then fires does
the state become CLOSED, with a close event carrying code 1006 and
wasClean = false.  So state equals CLOSED only after a further
connection_timeout (two timer periods in total). -/
theorem C2_amended_timeout_closes_after_closing_timer (cfg : ReliabilityConfig) :
    let r1 := connectionTimerFire (initWS cfg).1
    let r2 := closingTimerFire r1.1
    r1.1.state = ConnState.CLOSING ∧
    r1.2.2 = [] ∧
    r1.1.closingTimer = some (some 1006, some "Connection timeout") ∧
    r2.1.state = ConnState.CLOSED ∧
    r2.2 = [Evt.closed 1006 false] := by
  exact ⟨rfl, rfl, rfl, rfl, rfl⟩

/-- C7: send fails synchronously and transmits nothing exactly when the
state is not OPEN (NotOpen, whatever the argument) or the argument is a
Blob in state OPEN (Unsupported); whenever it fails the facade state
(including the engine's outstanding set) is unchanged and nothing is
transmitted. -/
theorem C7_send_error_conditions (st : WSState) (v : SendValue) :
    let r := wsSend st v
    r.2.2 = (if st.state ≠ ConnState.OPEN then some SendError.notOpen
             else if v = SendValue.blob then some SendError.unsupported
             else none) ∧
    (r.2.2 = none ∨ (r.1 = st ∧ r.2.1 = [])) := by
  unfold wsSend
  by_cases h : st.state = ConnState.OPEN
  · cases v <;> simp [h]
  · simp [h]

theorem C3_roundtrip_witness :
    (3 < 4294967296 ∧ 1 < 256 ∧ ([7, 8, 9] : Bytes).length ≤ 65535 ∧
      ∀ b ∈ ([7, 8, 9] : Bytes), b < 256) ∧
    ∃ hdr payload, decodePacket (encodePacket 3 1 [7, 8, 9]) = some (hdr, payload) ∧
      hdr.sequence = 3 ∧ hdr.flags = 1 ∧ hdr.payloadLength = ([7, 8, 9] : Bytes).length ∧
      payload = [7, 8, 9] :=
  ⟨⟨by decide, by decide, by decide, by decide⟩,
   C3_encode_decode_roundtrip 3 1 [7, 8, 9] (by decide) (by decide) (by decide) (by decide)⟩

/-! ## Lemmas about markReceived and the duplicate window -/

lemma markReceived_unacked (rm : RMState) (s : Nat) :
    (markReceived rm s).unacked = rm.unacked := by
  unfold markReceived
  dsimp only
  split <;> rfl

lemma markReceived_window_mem (rm : RMState) (s : Nat) :
    s ∈ (markReceived rm s).receivedSequenceWindow := by
  unfold markReceived
  dsimp only
  split
  · rename_i h
    cases hw : rm.receivedSequenceWindow with
    | nil =>
      rw [hw] at h
      simp [windowSize] at h
    | cons a t => simp
  · simp

lemma markReceived_WF (rm : RMState) (s : Nat) (h : WFrm rm)
    (hs : s ∉ rm.receivedSequences) : WFrm (markReceived rm s) := by
  obtain ⟨hnd, hmap⟩ := h
  have hsw : s ∉ rm.receivedSequenceWindow := by
    intro hmem
    exact hs (hmap ▸ List.mem_toFinset.2 hmem)
  unfold markReceived WFrm
  dsimp only
  by_cases hlen : (rm.receivedSequenceWindow ++ [s]).length > windowSize
  · rw [if_pos hlen]
    cases hw : rm.receivedSequenceWindow with
    | nil => rw [hw] at hlen; simp [windowSize] at hlen
    | cons a t =>
      rw [hw] at hnd hsw hmap
      have hat : a ∉ t := (List.nodup_cons.1 hnd).1
      have htnd : t.Nodup := (List.nodup_cons.1 hnd).2
      have hsa : s ≠ a := fun he => hsw (he ▸ List.mem_cons_self a t)
      have hst : s ∉ t := fun he => hsw (List.mem_cons_of_mem a he)
      constructor
      · simp only [List.cons_append, List.tail_cons]
        rw [List.nodup_append]
        exact ⟨htnd, List.nodup_singleton s, by simpa using hst⟩
      · rw [hmap]
        simp only [List.cons_append, List.headD_cons, List.tail_cons]
        ext x
        simp only [Finset.mem_erase, Finset.mem_insert, List.mem_toFinset,
          List.mem_cons, List.mem_append, List.not_mem_nil, or_false]
        constructor
        · rintro ⟨hxa, hx | hx | hx⟩
          · exact Or.inr hx
          · exact absurd hx hxa
          · exact Or.inl hx
        · rintro (hx | hx)
          · exact ⟨fun he => hat (he ▸ hx), Or.inr (Or.inr hx)⟩
          · exact ⟨hx ▸ hsa, Or.inl hx⟩
  · rw [if_neg hlen]
    constructor
    · rw [List.nodup_append]
      exact ⟨hnd, List.nodup_singleton s, by simpa using hsw⟩
    · rw [hmap]
      ext x
      simp only [Finset.mem_insert, List.mem_toFinset, List.mem_append,
        List.mem_cons, List.not_mem_nil, or_false]
      tauto

lemma markReceived_mem_received (rm : RMState) (s : Nat) (h : WFrm rm)
    (hs : s ∉ rm.receivedSequences) :
    s ∈ (markReceived rm s).receivedSequences := by
  rw [(markReceived_WF rm s h hs).2]
  exact List.mem_toFinset.2 (markReceived_window_mem rm s)

/-! ## Lemmas about the facade receive path -/

lemma handleReceivedPacket_nonack (rm : RMState) (pkt : Bytes)
    (hdr : PacketHeader) (pl : Bytes)
    (hdec : decodePacket pkt = some (hdr, pl)) (hack : hdr.flags ≠ FLAG_ACK) :
    handleReceivedPacket rm pkt =
      ((if isDuplicate rm hdr.sequence then rm else markReceived rm hdr.sequence),
       [createAckPacket hdr.sequence],
       some { sequence := hdr.sequence, flags := hdr.flags, payload := pl,
              isDuplicate := isDuplicate rm hdr.sequence }) := by
  unfold handleReceivedPacket
  rw [hdec]
  simp [hack]

lemma handleData_rm (st : WSState) (p : Bytes) : (handleData st p).1.rm = st.rm := by
  unfold handleData
  dsimp only
  repeat' split
  all_goals rfl

lemma handleData_state (st : WSState) (p : Bytes) :
    (handleData st p).1.state = st.state := by
  unfold handleData
  dsimp only
  repeat' split
  all_goals rfl

lemma handleData_events (st : WSState) (p : Bytes) :
    (handleData st p).2 = [] ∨ ∃ m, (handleData st p).2 = [Evt.message m] := by
  unfold handleData
  dsimp only
  repeat' split
  all_goals first
  | exact Or.inl rfl
  | exact Or.inr ⟨_, rfl⟩

lemma handleData_not_open (st : WSState) (p : Bytes)
    (h : st.state ≠ ConnState.OPEN) : handleData st p = (st, []) := by
  unfold handleData
  rw [if_pos h]

lemma countMessages_nil : countMessages [] = 0 := rfl

lemma countMessages_single (m : Bytes) : countMessages [Evt.message m] = 1 := rfl

lemma countMessages_le_one (evts : List Evt)
    (h : evts = [] ∨ ∃ m, evts = [Evt.message m]) : countMessages evts ≤ 1 := by
  rcases h with h | ⟨m, h⟩ <;> subst h <;> simp [countMessages]

/-- On a duplicate non-ACK packet the facade only re-ACKs: state
untouched, no events. -/
lemma handleReceivedData_dup (st : WSState) (pkt : Bytes)
    (hdr : PacketHeader) (pl : Bytes)
    (hdec : decodePacket pkt = some (hdr, pl)) (hack : hdr.flags ≠ FLAG_ACK)
    (hd : hdr.sequence ∈ st.rm.receivedSequences) :
    handleReceivedData st pkt = (st, [createAckPacket hdr.sequence], []) := by
  unfold handleReceivedData
  rw [handleReceivedPacket_nonack st.rm pkt hdr pl hdec hack]
  simp [isDuplicate, hd]

/-- On a fresh DATA packet the facade records the sequence, ACKs, and
dispatches to handleData. -/
lemma handleReceivedData_data_new (st : WSState) (pkt : Bytes)
    (hdr : PacketHeader) (pl : Bytes)
    (hdec : decodePacket pkt = some (hdr, pl)) (hflags : hdr.flags = FLAG_DATA)
    (hd : hdr.sequence ∉ st.rm.receivedSequences) :
    handleReceivedData st pkt =
      ((handleData { st with rm := markReceived st.rm hdr.sequence } pl).1,
       [createAckPacket hdr.sequence],
       (handleData { st with rm := markReceived st.rm hdr.sequence } pl).2) := by
  unfold handleReceivedData
  rw [handleReceivedPacket_nonack st.rm pkt hdr pl hdec (by rw [hflags]; decide)]
  simp [isDuplicate, hd, hflags, FLAG_DATA, FLAG_SYN, FLAG_FIN]

lemma WSState_clear_ct_eq (w : WSState) (h : w.connectionTimer = false) :
    { w with connectionTimer := false } = w := by
  cases w
  simp_all

/-- C8 is wrong about the code: close never touches the connection
timer.  From the freshly constructed state (CONNECTING, connection
timer armed), calling close leaves the connection timer armed. -/
theorem C8_counterexample_close_keeps_connection_timer :
    (initWS DEFAULT_CONFIG).1.state = ConnState.CONNECTING ∧
    (initWS DEFAULT_CONFIG).1.connectionTimer = true ∧
    (wsClose (initWS DEFAULT_CONFIG).1 none none).1.connectionTimer = true := by
  decide

/-- C8 amended: close() called in CONNECTING leaves the connection timer
exactly as it was (it is not cancelled), but because the state is then
CLOSING the timer's later firing only disarms it: state, transmissions
and events are unaffected.  The transition to CLOSED on FIN receipt
cancels the closing timer, and the closing-timer expiry clears it as
well. -/
theorem C8_amended_close_and_timers (st : WSState) (code : Option Nat)
    (reason : Option String) (stf : WSState)
    (hconn : st.state = ConnState.CONNECTING)
    (hfin : stf.state = ConnState.OPEN ∨ stf.state = ConnState.CLOSING) :
    (wsClose st code reason).1.connectionTimer = st.connectionTimer ∧
    connectionTimerFire (wsClose st code reason).1 =
      ({ (wsClose st code reason).1 with connectionTimer := false }, [], []) ∧
    (handleFin stf).1.closingTimer = none ∧
    (handleFin stf).1.state = ConnState.CLOSED ∧
    (closingTimerFire stf).1.closingTimer = none := by
  have hcond : ¬(st.state = ConnState.CLOSED ∨ st.state = ConnState.CLOSING) := by
    rw [hconn]; rintro (h | h) <;> exact ConnState.noConfusion h
  have hstc : (wsClose st code reason).1.state = ConnState.CLOSING := by
    unfold wsClose
    rw [if_neg hcond]
  have hct : (wsClose st code reason).1.connectionTimer = st.connectionTimer := by
    unfold wsClose
    rw [if_neg hcond]
  refine ⟨hct, ?_, ?_, ?_, ?_⟩
  · unfold connectionTimerFire
    by_cases hb : (wsClose st code reason).1.connectionTimer
    · rw [if_pos hb]
      dsimp only
      rw [if_neg (by simp [hstc])]
    · rw [if_neg hb]
      rw [WSState_clear_ct_eq _ (Bool.not_eq_true _ ▸ hb)]
  · unfold handleFin
    rw [if_pos hfin]
  · unfold handleFin
    rw [if_pos hfin]
  · unfold closingTimerFire
    split
    · rename_i h
      exact h
    · rfl

theorem C8_amended_witness :
    ((initWS DEFAULT_CONFIG).1.state = ConnState.CONNECTING ∧
     (wsOpenEndpoint.state = ConnState.OPEN ∨ wsOpenEndpoint.state = ConnState.CLOSING)) ∧
    ((wsClose (initWS DEFAULT_CONFIG).1 none none).1.connectionTimer =
        (initWS DEFAULT_CONFIG).1.connectionTimer ∧
     connectionTimerFire (wsClose (initWS DEFAULT_CONFIG).1 none none).1 =
       ({ (wsClose (initWS DEFAULT_CONFIG).1 none none).1 with connectionTimer := false }, [], []) ∧
     (handleFin wsOpenEndpoint).1.closingTimer = none ∧
     (handleFin wsOpenEndpoint).1.state = ConnState.CLOSED ∧
     (closingTimerFire wsOpenEndpoint).1.closingTimer = none) :=
  ⟨⟨by decide, by decide⟩,
   C8_amended_close_and_timers (initWS DEFAULT_CONFIG).1 none none wsOpenEndpoint
     (by decide) (by decide)⟩

/-- C10: a valid fresh DATA packet arriving while the state is not OPEN
is acknowledged with exactly one ACK carrying its sequence and its
sequence enters the receive window, but no message event fires and the
fragment buffers are untouched. -/
theorem C10_data_outside_open_acked_not_delivered (st : WSState) (pkt : Bytes)
    (hdr : PacketHeader) (pl : Bytes)
    (hdec : decodePacket pkt = some (hdr, pl))
    (hflags : hdr.flags = FLAG_DATA)
    (hnotopen : st.state ≠ ConnState.OPEN)
    (hnew : hdr.sequence ∉ st.rm.receivedSequences) :
    (handleReceivedData st pkt).2.1 = [createAckPacket hdr.sequence] ∧
    hdr.sequence ∈ (handleReceivedData st pkt).1.rm.receivedSequenceWindow ∧
    (handleReceivedData st pkt).2.2 = [] ∧
    (handleReceivedData st pkt).1.fragmentedMessages = st.fragmentedMessages := by
  rw [handleReceivedData_data_new st pkt hdr pl hdec hflags hnew]
  rw [handleData_not_open _ pl (by simpa using hnotopen)]
  exact ⟨rfl, markReceived_window_mem st.rm hdr.sequence, rfl, rfl⟩

theorem C10_witness :
    (decodePacket (encodePacket 7 FLAG_DATA [1, 2, 3]) =
        some ({ sequence := 7,
                checksum := (decodePacket (encodePacket 7 FLAG_DATA [1, 2, 3])).elim 0
                  (fun r => r.1.checksum),
                flags := FLAG_DATA, payloadLength := 3 }, [1, 2, 3]) ∧
     (initWS DEFAULT_CONFIG).1.state ≠ ConnState.OPEN ∧
     7 ∉ (initWS DEFAULT_CONFIG).1.rm.receivedSequences) ∧
    ((handleReceivedData (initWS DEFAULT_CONFIG).1 (encodePacket 7 FLAG_DATA [1, 2, 3])).2.1 =
        [createAckPacket 7] ∧
     7 ∈ (handleReceivedData (initWS DEFAULT_CONFIG).1
        (encodePacket 7 FLAG_DATA [1, 2, 3])).1.rm.receivedSequenceWindow ∧
     (handleReceivedData (initWS DEFAULT_CONFIG).1 (encodePacket 7 FLAG_DATA [1, 2, 3])).2.2 = [] ∧
     (handleReceivedData (initWS DEFAULT_CONFIG).1
        (encodePacket 7 FLAG_DATA [1, 2, 3])).1.fragmentedMessages =
       (initWS DEFAULT_CONFIG).1.fragmentedMessages) :=
  ⟨⟨by decide, by decide, by decide⟩,
   C10_data_outside_open_acked_not_delivered (initWS DEFAULT_CONFIG).1
     (encodePacket 7 FLAG_DATA [1, 2, 3])
     { sequence := 7,
       checksum := (decodePacket (encodePacket 7 FLAG_DATA [1, 2, 3])).elim 0
         (fun r => r.1.checksum),
       flags := FLAG_DATA, payloadLength := 3 } [1, 2, 3]
     (by decide) (by decide) (by decide) (by decide)⟩

/-- C4: delivering the same valid encoded DATA packet twice produces at
most one message event across both deliveries, while each delivery
(including the duplicate) transmits an ACK carrying the packet's
sequence. -/
theorem C4_duplicate_delivery (st : WSState) (pkt : Bytes)
    (hdr : PacketHeader) (pl : Bytes)
    (hWF : WFrm st.rm)
    (hdec : decodePacket pkt = some (hdr, pl))
    (hflags : hdr.flags = FLAG_DATA) :
    countMessages (handleReceivedData st pkt).2.2 +
      countMessages (handleReceivedData (handleReceivedData st pkt).1 pkt).2.2 ≤ 1 ∧
    createAckPacket hdr.sequence ∈ (handleReceivedData st pkt).2.1 ∧
    createAckPacket hdr.sequence ∈
      (handleReceivedData (handleReceivedData st pkt).1 pkt).2.1 := by
  have hack : hdr.flags ≠ FLAG_ACK := by rw [hflags]; decide
  by_cases hd : hdr.sequence ∈ st.rm.receivedSequences
  · rw [handleReceivedData_dup st pkt hdr pl hdec hack hd]
    rw [handleReceivedData_dup st pkt hdr pl hdec hack hd]
    exact ⟨by simp [countMessages], by simp, by simp⟩
  · rw [handleReceivedData_data_new st pkt hdr pl hdec hflags hd]
    have hrm : (handleData { st with rm := markReceived st.rm hdr.sequence } pl).1.rm =
        markReceived st.rm hdr.sequence := by
      rw [handleData_rm]
    have hd2 : hdr.sequence ∈
        (handleData { st with rm := markReceived st.rm hdr.sequence } pl).1.rm.receivedSequences := by
      rw [hrm]
      exact markReceived_mem_received st.rm hdr.sequence hWF hd
    rw [handleReceivedData_dup _ pkt hdr pl hdec hack hd2]
    refine ⟨?_, by simp, by simp⟩
    have := countMessages_le_one _ (handleData_events { st with rm := markReceived st.rm hdr.sequence } pl)
    simpa [countMessages] using this

theorem C4_witness :
    (WFrm wsOpenEndpoint.rm ∧
     decodePacket (encodePacket 9 FLAG_DATA [1, 2]) =
        some ({ sequence := 9,
                checksum := (decodePacket (encodePacket 9 FLAG_DATA [1, 2])).elim 0
                  (fun r => r.1.checksum),
                flags := FLAG_DATA, payloadLength := 2 }, [1, 2])) ∧
    (countMessages (handleReceivedData wsOpenEndpoint (encodePacket 9 FLAG_DATA [1, 2])).2.2 +
       countMessages (handleReceivedData
         (handleReceivedData wsOpenEndpoint (encodePacket 9 FLAG_DATA [1, 2])).1
         (encodePacket 9 FLAG_DATA [1, 2])).2.2 ≤ 1 ∧
     createAckPacket 9 ∈ (handleReceivedData wsOpenEndpoint (encodePacket 9 FLAG_DATA [1, 2])).2.1 ∧
     createAckPacket 9 ∈ (handleReceivedData
         (handleReceivedData wsOpenEndpoint (encodePacket 9 FLAG_DATA [1, 2])).1
         (encodePacket 9 FLAG_DATA [1, 2])).2.1) :=
  ⟨⟨⟨by decide, by decide⟩, by decide⟩,
   C4_duplicate_delivery wsOpenEndpoint (encodePacket 9 FLAG_DATA [1, 2])
     { sequence := 9,
       checksum := (decodePacket (encodePacket 9 FLAG_DATA [1, 2])).elim 0
         (fun r => r.1.checksum),
       flags := FLAG_DATA, payloadLength := 2 } [1, 2]
     ⟨by decide, by decide⟩ (by decide) (by decide)⟩

/-! ## Shape lemmas for the engine operations -/

lemma markReceived_config (rm : RMState) (s : Nat) :
    (markReceived rm s).config = rm.config := by
  unfold markReceived
  dsimp only
  split <;> rfl

lemma sendPacket_fields (rm : RMState) (p : Bytes) (f : Nat) :
    (sendPacket rm p f).1.config = rm.config ∧
    (sendPacket rm p f).1.receivedSequences = rm.receivedSequences ∧
    (sendPacket rm p f).1.receivedSequenceWindow = rm.receivedSequenceWindow ∧
    ((sendPacket rm p f).1.unacked = rm.unacked ∨
      ∃ e : UnacknowledgedPacket, e.attempts = 0 ∧
        (sendPacket rm p f).1.unacked = setSeq rm.unacked e) := by
  unfold sendPacket getNextSequence
  dsimp only
  split
  · exact ⟨rfl, rfl, rfl, Or.inl rfl⟩
  · exact ⟨rfl, rfl, rfl, Or.inr ⟨_, rfl, rfl⟩⟩

lemma handleReceivedPacket_shape (rm : RMState) (data : Bytes) :
    (handleReceivedPacket rm data).1 = rm ∨
    (∃ q, (handleReceivedPacket rm data).1 = handleAck rm q) ∨
    (∃ q, q ∉ rm.receivedSequences ∧
      (handleReceivedPacket rm data).1 = markReceived rm q) := by
  unfold handleReceivedPacket
  cases hdec : decodePacket data with
  | none => exact Or.inl rfl
  | some r =>
    obtain ⟨hdr, pl⟩ := r
    dsimp only
    split
    · exact Or.inr (Or.inl ⟨hdr.sequence, rfl⟩)
    · by_cases hdup : hdr.sequence ∈ rm.receivedSequences
      · left
        simp [isDuplicate, hdup]
      · right; right
        exact ⟨hdr.sequence, hdup, by simp [isDuplicate, hdup]⟩

lemma rmTimerFire_shape (rm : RMState) (q : Nat) :
    (rmTimerFire rm q).1 = rm ∨
    (rmTimerFire rm q).1 = { rm with unacked := removeSeq rm.unacked q } ∨
    (∃ e, findSeq rm.unacked q = some e ∧
      e.attempts < rm.config.maxRetransmissionAttempts ∧
      (rmTimerFire rm q).1 = { rm with unacked := bumpSeq rm.unacked q }) := by
  unfold rmTimerFire
  cases hf : findSeq rm.unacked q with
  | none => exact Or.inl rfl
  | some e =>
    dsimp only
    split
    · exact Or.inr (Or.inl rfl)
    · rename_i hlt
      exact Or.inr (Or.inr ⟨e, rfl, by omega, rfl⟩)

/-! ## C6: window capacity invariant -/

lemma markReceived_window_len (rm : RMState) (s : Nat)
    (h : rm.receivedSequenceWindow.length ≤ windowSize) :
    (markReceived rm s).receivedSequenceWindow.length ≤ windowSize := by
  unfold markReceived
  dsimp only
  split
  · rename_i hlen
    simp only [List.length_tail, List.length_append, List.length_singleton]
    omega
  · rename_i hlen
    simp only [List.length_append, List.length_singleton] at hlen ⊢
    omega

lemma rmStep_window_len (rm : RMState) (op : RMOp)
    (h : rm.receivedSequenceWindow.length ≤ windowSize) :
    (rmStep rm op).receivedSequenceWindow.length ≤ windowSize := by
  cases op with
  | send p f =>
    simp only [rmStep]
    rw [(sendPacket_fields rm p f).2.2.1]
    exact h
  | recv data =>
    simp only [rmStep]
    rcases handleReceivedPacket_shape rm data with hs | ⟨q, hs⟩ | ⟨q, hq, hs⟩ <;> rw [hs]
    · exact h
    · exact h
    · exact markReceived_window_len rm q h
  | fire q =>
    simp only [rmStep]
    rcases rmTimerFire_shape rm q with hs | hs | ⟨e, _, _, hs⟩ <;> rw [hs] <;> exact h
  | clean =>
    simp only [rmStep]
    simp [cleanup, windowSize]

lemma foldl_window_len : ∀ (ops : List RMOp) (rm : RMState),
    rm.receivedSequenceWindow.length ≤ windowSize →
    (ops.foldl rmStep rm).receivedSequenceWindow.length ≤ windowSize
  | [], _, h => h
  | op :: ops, rm, h =>
    foldl_window_len ops (rmStep rm op) (rmStep_window_len rm op h)

/-- C6: after every run of engine operations the receive window holds at
most windowSize (1000) entries, and an insertion into a full window
evicts exactly the oldest (head) entry: the window becomes the old tail
followed by the new sequence and the evicted head leaves the map. -/
theorem C6_window_capacity_and_fifo_eviction (cfg : ReliabilityConfig)
    (ops : List RMOp) (rm : RMState) (s : Nat)
    (hfull : rm.receivedSequenceWindow.length = windowSize) :
    (rmRun cfg ops).receivedSequenceWindow.length ≤ windowSize ∧
    (markReceived rm s).receivedSequenceWindow =
      rm.receivedSequenceWindow.tail ++ [s] ∧
    (markReceived rm s).receivedSequences =
      (insert s rm.receivedSequences).erase (rm.receivedSequenceWindow.headD 0) := by
  refine ⟨foldl_window_len ops (initRM cfg) (by simp [initRM]), ?_, ?_⟩
  · unfold markReceived
    dsimp only
    rw [if_pos (by simp; omega)]
    cases hw : rm.receivedSequenceWindow with
    | nil => rw [hw] at hfull; simp [windowSize] at hfull
    | cons a t => simp
  · unfold markReceived
    dsimp only
    rw [if_pos (by simp; omega)]
    cases hw : rm.receivedSequenceWindow with
    | nil => rw [hw] at hfull; simp [windowSize] at hfull
    | cons a t => simp

theorem C6_witness :
    rmFullWindow.receivedSequenceWindow.length = windowSize ∧
    ((rmRun DEFAULT_CONFIG []).receivedSequenceWindow.length ≤ windowSize ∧
     (markReceived rmFullWindow 2000).receivedSequenceWindow =
       rmFullWindow.receivedSequenceWindow.tail ++ [2000] ∧
     (markReceived rmFullWindow 2000).receivedSequences =
       (insert 2000 rmFullWindow.receivedSequences).erase
         (rmFullWindow.receivedSequenceWindow.headD 0)) :=
  ⟨by simp [rmFullWindow, windowSize],
   C6_window_capacity_and_fifo_eviction DEFAULT_CONFIG [] rmFullWindow 2000
     (by simp [rmFullWindow, windowSize])⟩

/-! ## C9: coherence of the duplicate map and the FIFO window -/

lemma rmStep_WF (rm : RMState) (op : RMOp) (h : WFrm rm) : WFrm (rmStep rm op) := by
  cases op with
  | send p f =>
    simp only [rmStep]
    unfold WFrm at h ⊢
    rw [(sendPacket_fields rm p f).2.1, (sendPacket_fields rm p f).2.2.1]
    exact h
  | recv data =>
    simp only [rmStep]
    rcases handleReceivedPacket_shape rm data with hs | ⟨q, hs⟩ | ⟨q, hq, hs⟩ <;> rw [hs]
    · exact h
    · exact h
    · exact markReceived_WF rm q h hq
  | fire q =>
    simp only [rmStep]
    rcases rmTimerFire_shape rm q with hs | hs | ⟨e, _, _, hs⟩ <;> rw [hs] <;> exact h
  | clean =>
    simp only [rmStep]
    simp [cleanup, WFrm]

lemma foldl_WF : ∀ (ops : List RMOp) (rm : RMState), WFrm rm →
    WFrm (ops.foldl rmStep rm)
  | [], _, h => h
  | op :: ops, rm, h => foldl_WF ops (rmStep rm op) (rmStep_WF rm op h)

/-- C9: after every run of engine operations, the duplicate-detection
map and the FIFO window describe the same sequences (a sequence is a
key of receivedSequences iff it occurs in receivedSequenceWindow) and
the window entries are pairwise distinct. -/
theorem C9_map_window_coherence (cfg : ReliabilityConfig) (ops : List RMOp) :
    (rmRun cfg ops).receivedSequenceWindow.Nodup ∧
    ∀ s, s ∈ (rmRun cfg ops).receivedSequences ↔
      s ∈ (rmRun cfg ops).receivedSequenceWindow := by
  have h : WFrm (rmRun cfg ops) :=
    foldl_WF ops (initRM cfg) (by simp [WFrm, initRM])
  exact ⟨h.1, fun s => by rw [h.2]; exact List.mem_toFinset⟩

/-! ## C5: retransmission attempts and budget -/

lemma setSeq_mem (l : List UnacknowledgedPacket) (e x : UnacknowledgedPacket)
    (hx : x ∈ setSeq l e) : x = e ∨ x ∈ l := by
  induction l with
  | nil => simpa [setSeq] using hx
  | cons a t ih =>
    by_cases ha : a.sequence = e.sequence
    · rw [setSeq, if_pos ha] at hx
      rcases List.mem_cons.1 hx with hx | hx
      · exact Or.inl hx
      · exact Or.inr (List.mem_cons_of_mem a hx)
    · rw [setSeq, if_neg ha] at hx
      rcases List.mem_cons.1 hx with hx | hx
      · exact Or.inr (hx ▸ List.mem_cons_self a t)
      · rcases ih hx with hx | hx
        · exact Or.inl hx
        · exact Or.inr (List.mem_cons_of_mem a hx)

lemma removeSeq_subset (l : List UnacknowledgedPacket) (q : Nat)
    (x : UnacknowledgedPacket) (hx : x ∈ removeSeq l q) : x ∈ l := by
  induction l with
  | nil => simp [removeSeq] at hx
  | cons a t ih =>
    by_cases ha : a.sequence = q
    · rw [removeSeq, if_pos ha] at hx
      exact List.mem_cons_of_mem a (ih hx)
    · rw [removeSeq, if_neg ha] at hx
      rcases List.mem_cons.1 hx with hx | hx
      · exact hx ▸ List.mem_cons_self a t
      · exact List.mem_cons_of_mem a (ih hx)

lemma findSeq_cons_pos (a : UnacknowledgedPacket) (t : List UnacknowledgedPacket)
    (q : Nat) (h : a.sequence = q) : findSeq (a :: t) q = some a := by
  simp [findSeq, List.find?_cons, h]

lemma findSeq_cons_neg (a : UnacknowledgedPacket) (t : List UnacknowledgedPacket)
    (q : Nat) (h : a.sequence ≠ q) : findSeq (a :: t) q = findSeq t q := by
  simp [findSeq, List.find?_cons, h]

lemma sendPacket_nonack_parts (rm : RMState) (payload : Bytes) (flags : Nat)
    (hflags : flags ≠ FLAG_ACK) :
    (sendPacket rm payload flags).2.1 = [encodePacket rm.nextSequence flags payload] ∧
    (sendPacket rm payload flags).2.2 = rm.nextSequence ∧
    (sendPacket rm payload flags).1.config = rm.config ∧
    (sendPacket rm payload flags).1.unacked =
      setSeq rm.unacked ⟨rm.nextSequence, encodePacket rm.nextSequence flags payload, 0⟩ := by
  unfold sendPacket getNextSequence
  dsimp only
  rw [if_neg hflags]
  exact ⟨rfl, rfl, rfl, rfl⟩

lemma bumpSeq_attempts (l : List UnacknowledgedPacket) (q maxA : Nat)
    (hall : ∀ x ∈ l, x.attempts ≤ maxA)
    (hfound : ∀ e, findSeq l q = some e → e.attempts < maxA) :
    ∀ x ∈ bumpSeq l q, x.attempts ≤ maxA := by
  induction l with
  | nil => simp [bumpSeq]
  | cons a t ih =>
    intro x hx
    by_cases ha : a.sequence = q
    · rw [bumpSeq, if_pos ha] at hx
      rcases List.mem_cons.1 hx with hx | hx
      · have := hfound a (findSeq_cons_pos a t q ha)
        subst hx
        show a.attempts + 1 ≤ maxA
        omega
      · exact hall x (List.mem_cons_of_mem a hx)
    · rw [bumpSeq, if_neg ha] at hx
      rcases List.mem_cons.1 hx with hx | hx
      · exact hx ▸ hall a (List.mem_cons_self a t)
      · exact ih (fun y hy => hall y (List.mem_cons_of_mem a hy))
          (fun e he => hfound e ((findSeq_cons_neg a t q ha) ▸ he)) x hx

lemma rmStep_config (rm : RMState) (op : RMOp) :
    (rmStep rm op).config = rm.config := by
  cases op with
  | send p f => simp only [rmStep]; exact (sendPacket_fields rm p f).1
  | recv data =>
    simp only [rmStep]
    rcases handleReceivedPacket_shape rm data with hs | ⟨q, hs⟩ | ⟨q, _, hs⟩
    · rw [hs]
    · rw [hs]
      rfl
    · rw [hs]
      exact markReceived_config rm q
  | fire q =>
    simp only [rmStep]
    rcases rmTimerFire_shape rm q with hs | hs | ⟨e, _, _, hs⟩ <;> rw [hs]
  | clean => rfl

lemma rmStep_attempts (rm : RMState) (op : RMOp)
    (h : ∀ x ∈ rm.unacked, x.attempts ≤ rm.config.maxRetransmissionAttempts) :
    ∀ x ∈ (rmStep rm op).unacked,
      x.attempts ≤ (rmStep rm op).config.maxRetransmissionAttempts := by
  rw [rmStep_config rm op]
  cases op with
  | send p f =>
    simp only [rmStep]
    rcases (sendPacket_fields rm p f).2.2.2 with hu | ⟨e, he, hu⟩ <;> rw [hu]
    · exact h
    · intro x hx
      rcases setSeq_mem rm.unacked e x hx with hx | hx
      · rw [hx, he]; omega
      · exact h x hx
  | recv data =>
    simp only [rmStep]
    rcases handleReceivedPacket_shape rm data with hs | ⟨q, hs⟩ | ⟨q, _, hs⟩ <;> rw [hs]
    · exact h
    · exact fun x hx => h x (removeSeq_subset rm.unacked q x hx)
    · rw [markReceived_unacked]
      exact h
  | fire q =>
    simp only [rmStep]
    rcases rmTimerFire_shape rm q with hs | hs | ⟨e, hf, hlt, hs⟩ <;> rw [hs]
    · exact h
    · exact fun x hx => h x (removeSeq_subset rm.unacked q x hx)
    · exact bumpSeq_attempts rm.unacked q rm.config.maxRetransmissionAttempts h
        (fun e' he' => by rw [hf] at he'; obtain rfl := Option.some.inj he'; exact hlt)
  | clean => simp [rmStep, cleanup]

lemma foldl_attempts : ∀ (ops : List RMOp) (rm : RMState),
    (∀ x ∈ rm.unacked, x.attempts ≤ rm.config.maxRetransmissionAttempts) →
    ∀ x ∈ (ops.foldl rmStep rm).unacked,
      x.attempts ≤ (ops.foldl rmStep rm).config.maxRetransmissionAttempts
  | [], _, h => h
  | op :: ops, rm, h => foldl_attempts ops (rmStep rm op) (rmStep_attempts rm op h)

lemma findSeq_removeSeq (l : List UnacknowledgedPacket) (q : Nat) :
    findSeq (removeSeq l q) q = none := by
  induction l with
  | nil => simp [removeSeq, findSeq]
  | cons a t ih =>
    by_cases ha : a.sequence = q
    · rw [removeSeq, if_pos ha]
      exact ih
    · rw [removeSeq, if_neg ha, findSeq_cons_neg a _ q ha]
      exact ih

lemma findSeq_bumpSeq (l : List UnacknowledgedPacket) (q : Nat) :
    findSeq (bumpSeq l q) q =
      (findSeq l q).map (fun e => { e with attempts := e.attempts + 1 }) := by
  induction l with
  | nil => simp [bumpSeq, findSeq]
  | cons a t ih =>
    by_cases ha : a.sequence = q
    · rw [bumpSeq, if_pos ha, findSeq_cons_pos a t q ha,
        findSeq_cons_pos ⟨a.sequence, a.packet, a.attempts + 1⟩ t q ha]
      rfl
    · rw [bumpSeq, if_neg ha, findSeq_cons_neg a _ q ha,
        findSeq_cons_neg a t q ha]
      exact ih

lemma findSeq_setSeq_fresh (l : List UnacknowledgedPacket)
    (e : UnacknowledgedPacket)
    (hfresh : ∀ x ∈ l, x.sequence ≠ e.sequence) :
    findSeq (setSeq l e) e.sequence = some e := by
  induction l with
  | nil => simp [setSeq, findSeq, List.find?_cons]
  | cons a t ih =>
    have ha : a.sequence ≠ e.sequence := hfresh a (List.mem_cons_self a t)
    rw [setSeq, if_neg ha, findSeq_cons_neg a _ e.sequence ha]
    exact ih fun x hx => hfresh x (List.mem_cons_of_mem a hx)

lemma rmTimerFire_none (rm : RMState) (q : Nat)
    (h : findSeq rm.unacked q = none) : rmTimerFire rm q = (rm, []) := by
  unfold rmTimerFire
  rw [h]

lemma rmTimerFire_exhausted (rm : RMState) (q : Nat) (e : UnacknowledgedPacket)
    (hfind : findSeq rm.unacked q = some e)
    (hge : rm.config.maxRetransmissionAttempts ≤ e.attempts) :
    rmTimerFire rm q = ({ rm with unacked := removeSeq rm.unacked q }, []) := by
  unfold rmTimerFire
  rw [hfind]
  dsimp only
  rw [if_pos hge]

lemma rmTimerFire_bump (rm : RMState) (q : Nat) (e : UnacknowledgedPacket)
    (hfind : findSeq rm.unacked q = some e)
    (hlt : e.attempts < rm.config.maxRetransmissionAttempts) :
    rmTimerFire rm q = ({ rm with unacked := bumpSeq rm.unacked q }, [e.packet]) := by
  unfold rmTimerFire
  rw [hfind]
  dsimp only
  rw [if_neg (by omega)]

lemma fireRepeat_none (q : Nat) : ∀ (n : Nat) (rm : RMState),
    findSeq rm.unacked q = none → fireRepeat q n rm = (rm, 0)
  | 0, _, _ => rfl
  | n + 1, rm, h => by
    unfold fireRepeat
    rw [rmTimerFire_none rm q h]
    dsimp only
    rw [fireRepeat_none q n rm h]
    rfl

lemma fireRepeat_le (q : Nat) : ∀ (n : Nat) (rm : RMState) (e : UnacknowledgedPacket),
    findSeq rm.unacked q = some e →
    (fireRepeat q n rm).2 ≤ rm.config.maxRetransmissionAttempts - e.attempts
  | 0, rm, e, _ => by simp [fireRepeat]
  | n + 1, rm, e, hfind => by
    unfold fireRepeat
    by_cases hge : rm.config.maxRetransmissionAttempts ≤ e.attempts
    · rw [rmTimerFire_exhausted rm q e hfind hge]
      dsimp only
      rw [fireRepeat_none q n _ (findSeq_removeSeq rm.unacked q)]
      simp
    · rw [rmTimerFire_bump rm q e hfind (by omega)]
      dsimp only
      have hfind' : findSeq (bumpSeq rm.unacked q) q =
          some { e with attempts := e.attempts + 1 } := by
        rw [findSeq_bumpSeq, hfind]
        rfl
      have := fireRepeat_le q n { rm with unacked := bumpSeq rm.unacked q }
        { e with attempts := e.attempts + 1 } hfind'
      simp only [List.length_singleton] at this ⊢
      omega

/-- C5: (i) after every run of engine operations every outstanding entry
satisfies attempts ≤ maxRetransmissionAttempts; (ii) a timer expiry on
an entry whose attempts have reached the budget removes the entry and
transmits nothing; (iii) a packet sent through sendPacket and then
subjected to any number of timer expiries is handed to the carrier at
most maxRetransmissionAttempts + 1 times in total. -/
theorem C5_retransmission_budget (cfg : ReliabilityConfig) (ops : List RMOp)
    (rm : RMState) (q : Nat) (e : UnacknowledgedPacket)
    (rm2 : RMState) (payload : Bytes) (flags : Nat) (n : Nat)
    (hfind : findSeq rm.unacked q = some e)
    (hexh : rm.config.maxRetransmissionAttempts ≤ e.attempts)
    (hflags : flags ≠ FLAG_ACK)
    (hfresh : ∀ x ∈ rm2.unacked, x.sequence ≠ rm2.nextSequence) :
    (∀ x ∈ (rmRun cfg ops).unacked,
       x.attempts ≤ (rmRun cfg ops).config.maxRetransmissionAttempts) ∧
    rmTimerFire rm q = ({ rm with unacked := removeSeq rm.unacked q }, []) ∧
    (sendPacket rm2 payload flags).2.1.length +
      (fireRepeat (sendPacket rm2 payload flags).2.2 n
        (sendPacket rm2 payload flags).1).2 ≤
      rm2.config.maxRetransmissionAttempts + 1 := by
  refine ⟨foldl_attempts ops (initRM cfg) (by simp [initRM]), ?_, ?_⟩
  · exact rmTimerFire_exhausted rm q e hfind hexh
  · obtain ⟨hout, hseq, hcfg, hunacked⟩ :=
      sendPacket_nonack_parts rm2 payload flags hflags
    rw [hout, hseq]
    have hf : findSeq (sendPacket rm2 payload flags).1.unacked rm2.nextSequence =
        some ⟨rm2.nextSequence, encodePacket rm2.nextSequence flags payload, 0⟩ := by
      rw [hunacked]
      exact findSeq_setSeq_fresh rm2.unacked _ hfresh
    have hle := fireRepeat_le rm2.nextSequence n (sendPacket rm2 payload flags).1
      ⟨rm2.nextSequence, encodePacket rm2.nextSequence flags payload, 0⟩ hf
    rw [hcfg] at hle
    have h0 : (⟨rm2.nextSequence, encodePacket rm2.nextSequence flags payload, 0⟩ :
        UnacknowledgedPacket).attempts = 0 := rfl
    rw [h0] at hle
    simp only [List.length_singleton] at hle ⊢
    omega

theorem C5_witness :
    (findSeq (RMState.mk DEFAULT_CONFIG 5 [⟨2, [0], 5⟩] ∅ []).unacked 2 =
        some ⟨2, [0], 5⟩ ∧
     (RMState.mk DEFAULT_CONFIG 5 [⟨2, [0], 5⟩] ∅ []).config.maxRetransmissionAttempts ≤
        (⟨2, [0], 5⟩ : UnacknowledgedPacket).attempts ∧
     FLAG_DATA ≠ FLAG_ACK ∧
     ∀ x ∈ (initRM DEFAULT_CONFIG).unacked, x.sequence ≠ (initRM DEFAULT_CONFIG).nextSequence) ∧
    ((∀ x ∈ (rmRun DEFAULT_CONFIG [RMOp.send [1] FLAG_DATA, RMOp.fire 1]).unacked,
        x.attempts ≤ (rmRun DEFAULT_CONFIG
          [RMOp.send [1] FLAG_DATA, RMOp.fire 1]).config.maxRetransmissionAttempts) ∧
     rmTimerFire (RMState.mk DEFAULT_CONFIG 5 [⟨2, [0], 5⟩] ∅ []) 2 =
       ({ RMState.mk DEFAULT_CONFIG 5 [⟨2, [0], 5⟩] ∅ [] with
          unacked := removeSeq (RMState.mk DEFAULT_CONFIG 5 [⟨2, [0], 5⟩] ∅ []).unacked 2 }, []) ∧
     (sendPacket (initRM DEFAULT_CONFIG) [9] FLAG_DATA).2.1.length +
       (fireRepeat (sendPacket (initRM DEFAULT_CONFIG) [9] FLAG_DATA).2.2 3
         (sendPacket (initRM DEFAULT_CONFIG) [9] FLAG_DATA).1).2 ≤
       (initRM DEFAULT_CONFIG).config.maxRetransmissionAttempts + 1) :=
  ⟨⟨by decide, by decide, by decide, by decide⟩,
   C5_retransmission_budget DEFAULT_CONFIG [RMOp.send [1] FLAG_DATA, RMOp.fire 1]
     (RMState.mk DEFAULT_CONFIG 5 [⟨2, [0], 5⟩] ∅ []) 2 ⟨2, [0], 5⟩
     (initRM DEFAULT_CONFIG) [9] FLAG_DATA 3
     (by decide) (by decide) (by decide) (by decide)⟩
